import Mathlib

/-!
Verification of the page-transition core (Snapshot, View, URL helpers) of the
ts-turbo repository, as a shallow embedding in Lean.

The DOM is modelled as a rose tree of elements carrying a tag name and an
attribute list.  Strings are modelled as Lean strings over their character
lists; JavaScript string indices (UTF-16 units) and Lean character counts
agree on the ASCII inputs used throughout.  Functions that can throw in the
browser (invalid CSS selectors) are embedded with an Except result.
-/

/-- An element node: tag name, attribute list (name, value), child elements.
Text nodes are irrelevant to every operation under verification (all queries
and child enumerations in the source range over elements only). -/
inductive Dom where
  | elem (tag : String) (attrs : List (String × String)) (children : List Dom)

/-- Tag name of an element (modelled lowercase, as HTML tag matching is
case-insensitive). -/
def Dom.tag : Dom → String
  | .elem t _ _ => t

/-- Attribute list of an element. -/
def Dom.attrs : Dom → List (String × String)
  | .elem _ a _ => a

/-- Direct child elements of an element (the live `element.children`). -/
def Dom.childNodes : Dom → List Dom
  | .elem _ _ c => c

/-- `getAttribute`: the value of the first attribute with the given name,
if present.  Real elements never carry duplicate attribute names. -/
def Dom.getAttr (d : Dom) (name : String) : Option String :=
  (d.attrs.find? (fun p => p.1 == name)).map (fun p => p.2)

/-- Whether an attribute with the given name is present (`[name]` selector). -/
def Dom.hasAttr (d : Dom) (name : String) : Bool :=
  (d.getAttr name).isSome

/-- Document-order (pre-order, depth-first) traversal of a forest. -/
def preorderList : List Dom → List Dom
  | [] => []
  | Dom.elem t a cs :: rest => Dom.elem t a cs :: (preorderList cs ++ preorderList rest)

/-- All proper descendants of an element in document order: the search space
of `element.querySelector` / `element.querySelectorAll` (which match
descendants only, never the element itself). -/
def Dom.descendants (d : Dom) : List Dom :=
  preorderList d.childNodes

/-- Error raised by `querySelector` when handed a syntactically invalid
selector (a DOMException in the browser). -/
inductive QueryError where
  | invalidSelector
deriving DecidableEq

/-- The single-quote character, written by code point to keep source lines
free of quoting subtleties. -/
def quoteChar : Char := Char.ofNat 39

/-- The backslash character. -/
def backslashChar : Char := Char.ofNat 92

/-- Guard under which the interpolated selector
`[id={q}{anchor}{q}], a[name={q}{anchor}{q}]` (with `{q}` the single-quote
character) is a valid selector list that compares the quoted anchor text
verbatim.  Unsafe characters: a single quote or backslash breaks out of the
quoted string (for almost all such anchors the selector is invalid and
`querySelector` throws, e.g. the anchor `a{q}b`; a few crafted anchors
instead parse as a different, injected selector list); a line feed, carriage
return or form feed inside a CSS string is a bad-string token, so the
selector is invalid and `querySelector` throws (CSS preprocessing first
normalizes CR and FF to LF); a NUL is replaced by U+FFFD during CSS
preprocessing, so the selector is valid but compares a different string.
The model conservatively reports every anchor containing one of these six
characters as invalid; on all other anchors a single-quoted CSS string
holds every remaining code point literally, so the model is exact there. -/
def anchorSelectorSafe (anchor : String) : Bool :=
  anchor.toList.all (fun c =>
    !(c = quoteChar || c = backslashChar || c = Char.ofNat 10 ||
      c = Char.ofNat 13 || c = Char.ofNat 12 || c = Char.ofNat 0))

/-- Matching predicate of the selector list
`[id={q}{anchor}{q}], a[name={q}{anchor}{q}]`: an element matches when its
id attribute equals the anchor, or it is an `a` element whose name
attribute equals the anchor. -/
def matchesAnchorSelector (anchor : String) (d : Dom) : Bool :=
  d.getAttr "id" == some anchor || (d.tag == "a" && d.getAttr "name" == some anchor)

/-- `Snapshot.getElementForAnchor`: `if (!anchor) return null` (null,
undefined and the empty string are all falsy), then
`element.querySelector` with the interpolated selector list, which returns
the first matching descendant in document order or throws on an invalid
selector. -/
def Snapshot.getElementForAnchor (element : Dom) (anchor : Option String) :
    Except QueryError (Option Dom) :=
  match anchor with
  | none => Except.ok none
  | some a =>
      if a = "" then Except.ok none
      else if anchorSelectorSafe a then
        Except.ok (element.descendants.find? (matchesAnchorSelector a))
      else Except.error QueryError.invalidSelector

/-- `Snapshot.hasAnchor`: false for null/undefined/empty anchors, otherwise
whether `getElementForAnchor` finds an element (exceptions propagate). -/
def Snapshot.hasAnchor (element : Dom) (anchor : Option String) :
    Except QueryError Bool :=
  match anchor with
  | none => Except.ok false
  | some a =>
      if a = "" then Except.ok false
      else (Snapshot.getElementForAnchor element (some a)).map (fun r => r.isSome)

/-- `Snapshot.children`: `Array.from(this.element.children)` — the direct
child elements, materialized into a fresh array at call time. -/
def Snapshot.children (element : Dom) : List Dom :=
  element.childNodes

/-- Predicate of the selector `[id][data-turbo-permanent]`: carries both an
id attribute and the permanence marker. -/
def isPermanentElement (d : Dom) : Bool :=
  d.hasAttr "id" && d.hasAttr "data-turbo-permanent"

/-- Module-level `queryPermanentElementsAll(node)`:
`node.querySelectorAll("[id][data-turbo-permanent]")`, all matching
descendants in document order. -/
def queryPermanentElementsAll (node : Dom) : List Dom :=
  node.descendants.filter isPermanentElement

/-- Syntactic class of id strings that `#{id}` tokenizes as a plain CSS id
selector, matching the id attribute value exactly: a letter or underscore
followed by letters, digits, hyphens and underscores. -/
def cssPlainIdent (s : String) : Bool :=
  match s.toList with
  | [] => false
  | c :: rest =>
      (c.isAlpha || c = Char.ofNat 95) &&
        rest.all (fun x => x.isAlpha || x.isDigit || x = Char.ofNat 45 || x = Char.ofNat 95)

/-- The full-stop character, which begins a class selector inside a
compound selector. -/
def dotChar : Char := Char.ofNat 46

/-- Split a character list at its first occurrence of a character. -/
def breakAtChar (c : Char) : List Char → Option (List Char × List Char)
  | [] => none
  | x :: xs =>
      if x = c then some ([], xs)
      else (breakAtChar c xs).map (fun p => (x :: p.1, p.2))

/-- ASCII whitespace, the separators of the HTML class attribute. -/
def htmlSpace (c : Char) : Bool :=
  c = Char.ofNat 32 || c = Char.ofNat 9 || c = Char.ofNat 10 ||
    c = Char.ofNat 13 || c = Char.ofNat 12

/-- Split a character list into maximal whitespace-free words (the second
argument accumulates the current word, reversed). -/
def splitClasses : List Char → List Char → List String
  | [], acc => if acc.isEmpty then [] else [String.mk acc.reverse]
  | c :: rest, acc =>
      if htmlSpace c then
        if acc.isEmpty then splitClasses rest []
        else String.mk acc.reverse :: splitClasses rest []
      else splitClasses rest (c :: acc)

/-- The class list of an element: its class attribute split on ASCII
whitespace, as matched by a CSS class selector. -/
def Dom.classList (d : Dom) : List String :=
  splitClasses ((d.getAttr "class").getD "").toList []

/-- How the interpolated probe selector `#{id}[data-turbo-permanent]`
parses, as a function of the interpolated id string. -/
inductive IdSelectorShape where
  | plain (id : String)
  | idDotClass (id : String) (cls : String)
  | unsupported
deriving DecidableEq

/-- Parse of the probe selector `#{id}` for the id strings the development
distinguishes: a plain CSS identifier is an id selector matching that exact
id; an identifier, a full stop and a second identifier form a compound of
an id selector and a class selector (the full stop is a selector
metacharacter, not part of the matched id value); every other shape is
conservatively reported unsupported and modelled as an invalid selector.
Some unsupported shapes are in fact valid selectors with yet other
semantics (e.g. a colon starts a pseudo-class), while others throw (e.g. an
id starting with a digit is not a valid id selector); none of them matches
the interpolated string as a verbatim id value, and no theorem below
depends on the unsupported branch beyond the concrete inputs it is exact
at. -/
def parseIdSelector (id : String) : IdSelectorShape :=
  if cssPlainIdent id then IdSelectorShape.plain id
  else
    match breakAtChar dotChar id.toList with
    | some (p, q) =>
        if cssPlainIdent (String.mk p) && cssPlainIdent (String.mk q) then
          IdSelectorShape.idDotClass (String.mk p) (String.mk q)
        else IdSelectorShape.unsupported
    | none => IdSelectorShape.unsupported

/-- The plain-identifier branch of the probe: the first descendant whose id
attribute equals the identifier and which carries the permanence marker. -/
def plainProbe (node : Dom) (id : String) : Option Dom :=
  node.descendants.find?
    (fun d => d.getAttr "id" == some id && d.hasAttr "data-turbo-permanent")

/-- Module-level `getPermanentElementById(node, id)`:
`node.querySelector(`#{id}[data-turbo-permanent]`)`.  The id string is
interpolated into selector syntax, so the probe follows the parse of
`#{id}`: a plain identifier matches by exact id attribute; an
identifier-dot-identifier matches the compound id-and-class, not the dotted
string as an id value; other shapes are modelled as an invalid selector,
on which `querySelector` throws. -/
def getPermanentElementById (node : Dom) (id : String) :
    Except QueryError (Option Dom) :=
  match parseIdSelector id with
  | IdSelectorShape.plain i => Except.ok (plainProbe node i)
  | IdSelectorShape.idDotClass i cls =>
      Except.ok (node.descendants.find?
        (fun d => d.getAttr "id" == some i && d.classList.contains cls &&
          d.hasAttr "data-turbo-permanent"))
  | IdSelectorShape.unsupported => Except.error QueryError.invalidSelector

/-- `Snapshot.permanentElements`: delegates to `queryPermanentElementsAll`
on the snapshot root. -/
def Snapshot.permanentElements (element : Dom) : List Dom :=
  queryPermanentElementsAll element

/-- The loop body of `getPermanentElementMapForSnapshot`: for each
permanent element of the current snapshot, in order, read its `id`
property, probe the other snapshot, and append an entry when the probe
finds an element; an exception thrown by the probe aborts the loop and
propagates to the caller. -/
def permanentElementMapLoop (otherElement : Dom) :
    List Dom → List (String × Dom × Dom) → Except QueryError (List (String × Dom × Dom))
  | [], acc => Except.ok acc
  | el :: rest, acc =>
      let id := (el.getAttr "id").getD ""
      match getPermanentElementById otherElement id with
      | Except.error e => Except.error e
      | Except.ok none => permanentElementMapLoop otherElement rest acc
      | Except.ok (some n) =>
          permanentElementMapLoop otherElement rest (acc ++ [(id, el, n)])

/-- `Snapshot.getPermanentElementMapForSnapshot`: iterates the permanent
elements of this snapshot, reads the `id` property of each (the id
attribute, or the empty string when absent — never hit here, since
permanent elements carry an id), probes the other snapshot via
`getPermanentElementById`, and records an entry exactly when the probe
succeeds; a probe exception propagates out of the call.  The JS object is
modelled as an association list in insertion order; with ids unique within
the snapshot (the documented caller invariant) no key is ever assigned
twice, so the two agree. -/
def Snapshot.getPermanentElementMapForSnapshot (element otherElement : Dom) :
    Except QueryError (List (String × Dom × Dom)) :=
  permanentElementMapLoop otherElement (Snapshot.permanentElements element) []

/-- Mutation of the live subtree: append a child element at the end of the
child list of the root. -/
def appendChild (d c : Dom) : Dom :=
  Dom.elem d.tag d.attrs (d.childNodes ++ [c])

/-- Mutation of the live subtree: remove the last child element of the root. -/
def removeLastChild (d : Dom) : Dom :=
  Dom.elem d.tag d.attrs d.childNodes.dropLast

/-- A URL-like value as in `src/core/url.ts`: an `href` string plus an
optional `hash` property (absent models the JS `undefined`).  A genuine
`URL` object always carries a `hash` that is either empty or a quote of the
fragment part of `href`. -/
structure URLLike where
  href : String
  hash : Option String
deriving DecidableEq

/-- The hash-sign character. -/
def hashChar : Char := Char.ofNat 35

/-- The newline character. -/
def newlineChar : Char := Char.ofNat 10

/-- Everything after the first hash sign of a character list, or `none`
when no hash sign occurs. -/
def afterFirstHashChar : List Char → Option (List Char)
  | [] => none
  | x :: xs => if x = hashChar then some xs else afterFirstHashChar xs

/-- Everything after the last newline (the whole list when none occurs). -/
def afterLastNewline (l : List Char) : List Char :=
  (l.reverse.takeWhile (fun c => c ≠ newlineChar)).reverse

/-- The fallback branch of `getAnchor`: `href.match(/#(.*)$/)`.  The JS
regex (no multiline or dot-all flags) matches at the first hash sign that
is followed by no further newline, i.e. the first hash sign located after
the last newline, and captures everything after it. -/
def hrefMatchAnchor (href : String) : Option String :=
  (afterFirstHashChar (afterLastNewline href.toList)).map (fun cs => String.mk cs)

/-- `getAnchor(url)`: prefer `url.hash` when present and non-empty
(returning it without its leading character), otherwise fall back to the
regex match on `url.href`; `undefined` when neither yields a fragment. -/
def getAnchor (url : URLLike) : Option String :=
  match url.hash with
  | some h => if h.length > 0 then some (String.mk (h.toList.drop 1)) else hrefMatchAnchor url.href
  | none => hrefMatchAnchor url.href

/-- `getRequestURL(url)`: when an anchor is found (including the empty
anchor), drop the last `anchor.length + 1` characters from `href`
(`href.slice(0, -(anchor.length + 1))`, which clamps at zero); otherwise
return `href` unchanged. -/
def getRequestURL (url : URLLike) : String :=
  match getAnchor url with
  | some anchor =>
      String.mk (url.href.toList.take (url.href.toList.length - (anchor.toList.length + 1)))
  | none => url.href

/-- `toCacheKey(url)`: identical to `getRequestURL(url)`. -/
def toCacheKey (url : URLLike) : String :=
  getRequestURL url

/-- Modelled from the spec: the repository ships only `src/core/view.test.ts`;
the `View` implementation itself (`src/core/view.ts`) is not among the source
files, so the Renderer collaborator is modelled from the specification, section
6 (Renderer contract).  Outcomes of the two async lifecycle methods are data:
`Except.ok` models a fulfilled promise, `Except.error` a rejection carried to
the caller. -/
structure Renderer where
  shouldRender : Bool
  willRender : Bool
  reloadReason : Option String
  isPreview : Bool
  renderMethod : Option String
  prepareToRenderOutcome : Except String Unit
  renderOutcome : Except String Unit

/-- Modelled from the spec: observable steps of the render pipeline of the
missing `src/core/view.ts`, drawn from specification sections 4.2 and 5 (the
render state machine and its ordering guarantees) and mirrored by the
recorded expectations in `src/core/view.test.ts`. -/
inductive VEvent where
  | setRenderPromise
  | allowsImmediateRenderAsked
  | resumeInvoked
  | markAsPreview (isPreview : Bool)
  | prepareToRenderCalled
  | renderCalled
  | viewRenderedSnapshot (isPreview : Bool) (renderMethod : Option String)
  | preloadOnLoadLinksForView
  | finishRenderingCalled
  | viewInvalidated (reason : Option String)
  | clearRenderPromise
deriving DecidableEq

/-- Modelled from the spec: how one `View.render(renderer)` call settles —
fulfilled, rejected with the collaborator failure, or pending forever
because the Delegate suspended the pipeline and nobody invoked resume. -/
inductive ROutcome where
  | completed
  | rejected (e : String)
  | pending
deriving DecidableEq

/-- Modelled from the spec: the observable effect of one `View.render` call,
as the ordered list of pipeline steps plus how the returned promise settles. -/
structure RenderRun where
  events : List VEvent
  outcome : ROutcome

/-- Phase rank of a pipeline step: gate and suspension (0), prepare (1),
render (2), then the finalize sequence in its fixed order — notify-rendered
(3), preload-on-load-links (4), finish-rendering (5), clear render-in-flight
(6).  Invalidation is no phase of the rendering pipeline. -/
def VEvent.phaseRank : VEvent → Nat
  | .setRenderPromise => 0
  | .allowsImmediateRenderAsked => 0
  | .resumeInvoked => 0
  | .markAsPreview _ => 1
  | .prepareToRenderCalled => 1
  | .renderCalled => 2
  | .viewRenderedSnapshot _ _ => 3
  | .preloadOnLoadLinksForView => 4
  | .finishRenderingCalled => 5
  | .viewInvalidated _ => 0
  | .clearRenderPromise => 6

/-- Modelled from the spec: `View.render(renderer)` of the missing
`src/core/view.ts`, from specification section 4.2.  With
`shouldRender=false` the call either invalidates (when `willRender`) or does
nothing.  With `shouldRender=true` it sets the render-in-flight marker, asks
the Delegate, suspends until resume when immediate rendering is refused
(pending forever when resume is never invoked — `resumed = false`), then
marks the preview state and awaits `renderer.prepareToRender()`, awaits
`renderer.render()`, and on success runs the finalize notifications in their
fixed order.  A rejection of either await propagates to the caller; the
render-in-flight marker is cleared on every settling path (the
guaranteed-cleanup block), while the Delegate notifications run only on
success. -/
def View.render (allowsImmediateRender resumed : Bool) (r : Renderer) : RenderRun :=
  if !r.shouldRender then
    if r.willRender then
      { events := [VEvent.viewInvalidated r.reloadReason], outcome := ROutcome.completed }
    else
      { events := [], outcome := ROutcome.completed }
  else
    let gate : List VEvent :=
      [VEvent.setRenderPromise, VEvent.allowsImmediateRenderAsked] ++
        (if allowsImmediateRender then [] else if resumed then [VEvent.resumeInvoked] else [])
    if !allowsImmediateRender && !resumed then
      { events := gate, outcome := ROutcome.pending }
    else
      match r.prepareToRenderOutcome with
      | Except.error e =>
          { events := gate ++ [VEvent.markAsPreview r.isPreview, VEvent.prepareToRenderCalled,
              VEvent.clearRenderPromise],
            outcome := ROutcome.rejected e }
      | Except.ok _ =>
          match r.renderOutcome with
          | Except.error e =>
              { events := gate ++ [VEvent.markAsPreview r.isPreview,
                  VEvent.prepareToRenderCalled, VEvent.renderCalled,
                  VEvent.clearRenderPromise],
                outcome := ROutcome.rejected e }
          | Except.ok _ =>
              { events := gate ++ [VEvent.markAsPreview r.isPreview,
                  VEvent.prepareToRenderCalled, VEvent.renderCalled,
                  VEvent.viewRenderedSnapshot r.isPreview r.renderMethod,
                  VEvent.preloadOnLoadLinksForView, VEvent.finishRenderingCalled,
                  VEvent.clearRenderPromise],
                outcome := ROutcome.completed }

/-- An anchor element named X, carrying no identifier. -/
def anchorNameEl : Dom := Dom.elem "a" [("name", "X")] []

/-- An element whose identifier is X. -/
def anchorIdEl : Dom := Dom.elem "div" [("id", "X")] []

/-- A subtree in which the name-matching anchor precedes the
identifier-matching element in document order. -/
def anchorDoc : Dom := Dom.elem "div" [] [anchorNameEl, anchorIdEl]

/-- C7: for every snapshot root, a null or undefined anchor and the
empty-string anchor make hasAnchor return false and getElementForAnchor
return null; the result is the same for every subtree, so the subtree is
never consulted. -/
theorem hasAnchor_getElementForAnchor_empty_input (element : Dom) :
    Snapshot.hasAnchor element none = Except.ok false ∧
    Snapshot.hasAnchor element (some "") = Except.ok false ∧
    Snapshot.getElementForAnchor element none = Except.ok none ∧
    Snapshot.getElementForAnchor element (some "") = Except.ok none := by
  refine ⟨rfl, ?_, rfl, ?_⟩ <;>
    simp [Snapshot.hasAnchor, Snapshot.getElementForAnchor]

/-- C9: the children array is materialized from the tree at call time
(Array.from), so it is a pure value of the pre-mutation tree: appending a
child to or removing one from the live subtree afterwards produces a tree
whose live child list extends or shrinks the captured array, while the
captured array neither gains nor loses entries — it no longer coincides
with the live children after the mutation. -/
theorem children_fixed_at_call_time (d c : Dom) :
    Snapshot.children (appendChild d c) = Snapshot.children d ++ [c] ∧
    Snapshot.children d ≠ Snapshot.children (appendChild d c) ∧
    Snapshot.children (removeLastChild (appendChild d c)) = Snapshot.children d := by
  refine ⟨rfl, ?_, ?_⟩
  · intro h
    have := congrArg List.length h
    simp [Snapshot.children, appendChild, Dom.childNodes] at this
  · simp [Snapshot.children, appendChild, removeLastChild, Dom.childNodes]

/-- C5 fails on the code: in a subtree where the anchor element named X
precedes the element with identifier X in document order, the combined
selector list resolves to the earlier name match, not to the identifier
match — the identifier has no precedence over an earlier name match. -/
theorem getElementForAnchor_name_shadows_id :
    Snapshot.getElementForAnchor anchorDoc (some "X") = Except.ok (some anchorNameEl) ∧
    anchorNameEl.getAttr "id" = none ∧
    anchorIdEl ∈ anchorDoc.descendants ∧
    anchorIdEl.getAttr "id" = some "X" := by
  refine ⟨?_, by decide, ?_, by decide⟩
  · simp +decide [Snapshot.getElementForAnchor, anchorSelectorSafe, anchorDoc,
      anchorNameEl, anchorIdEl, Dom.descendants, preorderList, Dom.childNodes,
      matchesAnchorSelector, Dom.getAttr, Dom.attrs, Dom.tag]
  · simp [anchorDoc, anchorNameEl, anchorIdEl, Dom.descendants, preorderList,
      Dom.childNodes]

/-- C5 (amended): for a non-empty, quote- and backslash-free anchor,
getElementForAnchor returns exactly the first descendant in document order
matching either criterion — identifier equal to the anchor, or an anchor
element named with that value.  The identifier match is returned precisely
when it precedes every name match; a name match earlier in document order
is returned even though an identifier match exists. -/
theorem getElementForAnchor_first_match_in_document_order
    (element : Dom) (a : String) (e : Dom)
    (hne : a ≠ "") (hsafe : anchorSelectorSafe a = true) :
    Snapshot.getElementForAnchor element (some a) = Except.ok (some e) ↔
      matchesAnchorSelector a e = true ∧
        ∃ before after, element.descendants = before ++ e :: after ∧
          ∀ d ∈ before, matchesAnchorSelector a d = false := by
  simp [Snapshot.getElementForAnchor, hne, hsafe, List.find?_eq_some]

/-- Witness for the amended C5 at the concrete subtree: the name-matching
anchor element is returned, matches the selector, and no matching
descendant precedes it. -/
theorem getElementForAnchor_first_match_in_document_order_witness :
    matchesAnchorSelector "X" anchorNameEl = true ∧
      ∃ before after, anchorDoc.descendants = before ++ anchorNameEl :: after ∧
        ∀ d ∈ before, matchesAnchorSelector "X" d = false :=
  (getElementForAnchor_first_match_in_document_order anchorDoc "X" anchorNameEl
      (by decide) (by decide)).mp
    (by simp +decide [Snapshot.getElementForAnchor, anchorSelectorSafe, anchorDoc,
      anchorNameEl, anchorIdEl, Dom.descendants, preorderList, Dom.childNodes,
      matchesAnchorSelector, Dom.getAttr, Dom.attrs, Dom.tag])

/-- C6 fails on the code: the anchor consisting of the letter a, a single
quote and the letter b makes the interpolated selector syntactically
invalid, and both lookups raise a selector error instead of returning
normally. -/
theorem anchor_lookup_raises_on_quote :
    Snapshot.getElementForAnchor anchorDoc (some "a\x27b") =
        Except.error QueryError.invalidSelector ∧
    Snapshot.hasAnchor anchorDoc (some "a\x27b") =
        Except.error QueryError.invalidSelector := by
  constructor <;>
    simp +decide [Snapshot.getElementForAnchor, Snapshot.hasAnchor,
      anchorSelectorSafe, quoteChar, backslashChar, Except.map]

/-- C6 (amended): for every anchor free of quote and backslash characters,
hasAnchor and getElementForAnchor return normally — never an exception —
and when no descendant matches, the results are the normal false and null;
an anchor containing a quote character can instead raise a selector error. -/
theorem anchor_lookup_total_on_safe_anchors (element : Dom) (a : String)
    (hsafe : anchorSelectorSafe a = true) :
    (∃ r, Snapshot.getElementForAnchor element (some a) = Except.ok r) ∧
    (∃ b, Snapshot.hasAnchor element (some a) = Except.ok b) ∧
    ((∀ d ∈ element.descendants, matchesAnchorSelector a d = false) →
      Snapshot.getElementForAnchor element (some a) = Except.ok none ∧
      Snapshot.hasAnchor element (some a) = Except.ok false) := by
  by_cases hne : a = ""
  · subst hne
    exact ⟨⟨none, by simp [Snapshot.getElementForAnchor]⟩,
      ⟨false, by simp [Snapshot.hasAnchor]⟩,
      fun _ => ⟨by simp [Snapshot.getElementForAnchor], by simp [Snapshot.hasAnchor]⟩⟩
  · refine ⟨⟨element.descendants.find? (matchesAnchorSelector a), ?_⟩,
      ⟨(element.descendants.find? (matchesAnchorSelector a)).isSome, ?_⟩, ?_⟩
    · simp [Snapshot.getElementForAnchor, hne, hsafe]
    · simp [Snapshot.hasAnchor, Snapshot.getElementForAnchor, hne, hsafe, Except.map]
    · intro hnone
      have hfind : element.descendants.find? (matchesAnchorSelector a) = none := by
        rw [List.find?_eq_none]
        intro x hx
        simp [hnone x hx]
      constructor
      · simp [Snapshot.getElementForAnchor, hne, hsafe, hfind]
      · simp [Snapshot.hasAnchor, Snapshot.getElementForAnchor, hne, hsafe, hfind,
          Except.map]

/-- Witness for the amended C6 at a concrete subtree and the unmatched
anchor zzz: both lookups return normally, with null and false. -/
theorem anchor_lookup_total_on_safe_anchors_witness :
    (∃ r, Snapshot.getElementForAnchor anchorDoc (some "zzz") = Except.ok r) ∧
    (∃ b, Snapshot.hasAnchor anchorDoc (some "zzz") = Except.ok b) ∧
    ((∀ d ∈ anchorDoc.descendants, matchesAnchorSelector "zzz" d = false) →
      Snapshot.getElementForAnchor anchorDoc (some "zzz") = Except.ok none ∧
      Snapshot.hasAnchor anchorDoc (some "zzz") = Except.ok false) :=
  anchor_lookup_total_on_safe_anchors anchorDoc "zzz" (by decide)

/-- Membership in the permanent-element list is membership among the
descendants together with the permanence predicate. -/
theorem mem_permanentElements {root d : Dom} :
    d ∈ Snapshot.permanentElements root ↔
      d ∈ root.descendants ∧ isPermanentElement d = true := by
  simp [Snapshot.permanentElements, queryPermanentElementsAll, List.mem_filter]

/-- A successful plain-id probe yields a permanent element of the probed
snapshot carrying exactly that id. -/
theorem plainProbe_mem {root : Dom} {id : String} {b : Dom}
    (h : plainProbe root id = some b) :
    b ∈ Snapshot.permanentElements root ∧ b.getAttr "id" = some id := by
  have hb := List.find?_some h
  have hmem := List.mem_of_find?_eq_some h
  simp only [Bool.and_eq_true, beq_iff_eq] at hb
  refine ⟨mem_permanentElements.mpr ⟨hmem, ?_⟩, hb.1⟩
  have h2 : (b.getAttr "data-turbo-permanent").isSome = true := by
    simpa [Dom.hasAttr] using hb.2
  simp [isPermanentElement, Dom.hasAttr, hb.1, h2]

/-- When the probed snapshot holds a permanent element with the id, the
plain-id probe finds one. -/
theorem plainProbe_isSome {root : Dom} {id : String} {b : Dom}
    (hb : b ∈ Snapshot.permanentElements root) (hid : b.getAttr "id" = some id) :
    ∃ b2, plainProbe root id = some b2 := by
  rcases mem_permanentElements.mp hb with ⟨hmem, hperm⟩
  have hmark : b.hasAttr "data-turbo-permanent" = true := by
    simp only [isPermanentElement, Bool.and_eq_true] at hperm
    exact hperm.2
  have : (plainProbe root id).isSome := by
    rw [plainProbe, List.find?_isSome]
    exact ⟨b, hmem, by simp [hid, hmark]⟩
  exact Option.isSome_iff_exists.mp this

/-- Every permanent element carries an id attribute. -/
theorem permanent_id_isSome {root d : Dom} (h : d ∈ Snapshot.permanentElements root) :
    ∃ v, d.getAttr "id" = some v := by
  rcases mem_permanentElements.mp h with ⟨-, hperm⟩
  simp only [isPermanentElement, Bool.and_eq_true, Dom.hasAttr,
    Option.isSome_iff_exists] at hperm
  exact hperm.1

/-- On a plain CSS identifier the probe selector is exactly the
id-attribute lookup and never throws. -/
theorem getPermanentElementById_plain {node : Dom} {id : String}
    (h : cssPlainIdent id = true) :
    getPermanentElementById node id = Except.ok (plainProbe node id) := by
  simp [getPermanentElementById, parseIdSelector, h]

/-- With every probed id a plain identifier, the probe loop never throws
and returns the accumulator extended by exactly the entries whose probe
finds an element. -/
theorem permanentElementMapLoop_plain (otherElement : Dom) (l : List Dom) :
    ∀ acc : List (String × Dom × Dom),
    (∀ d ∈ l, cssPlainIdent ((d.getAttr "id").getD "") = true) →
    permanentElementMapLoop otherElement l acc =
      Except.ok (acc ++ l.filterMap (fun el =>
        (plainProbe otherElement ((el.getAttr "id").getD "")).map
          (fun n => (((el.getAttr "id").getD ""), el, n)))) := by
  induction l with
  | nil => intro acc _; simp [permanentElementMapLoop]
  | cons el rest ih =>
    intro acc hplain
    have hel := hplain el (List.mem_cons_self _ _)
    have hrest : ∀ d ∈ rest, cssPlainIdent ((d.getAttr "id").getD "") = true :=
      fun d hd => hplain d (List.mem_cons_of_mem _ hd)
    cases hp : plainProbe otherElement ((el.getAttr "id").getD "") with
    | none =>
      simp [permanentElementMapLoop, getPermanentElementById_plain hel, hp,
        ih acc hrest, List.filterMap_cons]
    | some n =>
      simp [permanentElementMapLoop, getPermanentElementById_plain hel, hp,
        ih (acc ++ [(((el.getAttr "id").getD ""), el, n)]) hrest,
        List.filterMap_cons]

/-- C8 (amended): with permanent-element identifiers unique within each
snapshot (the documented caller invariant) and all current-side permanent
identifiers plain CSS identifiers — the domain on which the interpolated
probe selector means lookup by id value — the map call returns normally and
its map holds the entry (id, currentEl, incomingEl) exactly when currentEl
is a permanent element of current with identifier id and incomingEl a
permanent element of incoming with identifier id; identifiers with a
permanent element on only one side contribute no entry, and each identifier
determines its pair uniquely. -/
theorem getPermanentElementMapForSnapshot_plain_ids (current incoming : Dom)
    (hu1 : ((Snapshot.permanentElements current).map (fun d => d.getAttr "id")).Nodup)
    (hu2 : ((Snapshot.permanentElements incoming).map (fun d => d.getAttr "id")).Nodup)
    (hplain : ∀ d ∈ Snapshot.permanentElements current,
        cssPlainIdent ((d.getAttr "id").getD "") = true) :
    ∃ m, Snapshot.getPermanentElementMapForSnapshot current incoming = Except.ok m ∧
      (∀ id a b, (id, a, b) ∈ m ↔
        (a ∈ Snapshot.permanentElements current ∧ a.getAttr "id" = some id ∧
         b ∈ Snapshot.permanentElements incoming ∧ b.getAttr "id" = some id)) ∧
      (∀ id a b a2 b2, (id, a, b) ∈ m → (id, a2, b2) ∈ m → a = a2 ∧ b = b2) := by
  have hm : Snapshot.getPermanentElementMapForSnapshot current incoming =
      Except.ok ((Snapshot.permanentElements current).filterMap (fun el =>
        (plainProbe incoming ((el.getAttr "id").getD "")).map
          (fun n => (((el.getAttr "id").getD ""), el, n)))) := by
    rw [Snapshot.getPermanentElementMapForSnapshot,
      permanentElementMapLoop_plain incoming _ [] hplain]
    simp
  have hiff : ∀ id a b,
      (id, a, b) ∈ (Snapshot.permanentElements current).filterMap (fun el =>
          (plainProbe incoming ((el.getAttr "id").getD "")).map
            (fun n => (((el.getAttr "id").getD ""), el, n))) ↔
        (a ∈ Snapshot.permanentElements current ∧ a.getAttr "id" = some id ∧
         b ∈ Snapshot.permanentElements incoming ∧ b.getAttr "id" = some id) := by
    intro id a b
    constructor
    · intro hmem
      rcases List.mem_filterMap.mp hmem with ⟨cur, hcur, hf⟩
      rcases Option.map_eq_some'.mp hf with ⟨n, hn, heq⟩
      have h1 : (cur.getAttr "id").getD "" = id := congrArg Prod.fst heq
      have h2 : cur = a := congrArg (fun p => p.2.1) heq
      have h3 : n = b := congrArg (fun p => p.2.2) heq
      subst h2; subst h3
      rcases permanent_id_isSome hcur with ⟨v, hv⟩
      have hva : cur.getAttr "id" = some id := by
        rw [hv]; rw [hv] at h1; simp at h1; rw [h1]
      rw [h1] at hn
      rcases plainProbe_mem hn with ⟨hbmem, hbid⟩
      exact ⟨hcur, hva, hbmem, hbid⟩
    · rintro ⟨ha, haid, hbmem, hbid⟩
      apply List.mem_filterMap.mpr
      refine ⟨a, ha, ?_⟩
      have hgd : (a.getAttr "id").getD "" = id := by rw [haid]; rfl
      rcases plainProbe_isSome hbmem hbid with ⟨b2, hb2⟩
      rcases plainProbe_mem hb2 with ⟨hb2mem, hb2id⟩
      have hbb : b2 = b :=
        List.inj_on_of_nodup_map hu2 hb2mem hbmem (by rw [hb2id, hbid])
      simp only [hgd, hb2, hbb, Option.map_some']
  refine ⟨_, hm, hiff, ?_⟩
  intro id a b a2 b2 h1 h2
  rcases (hiff id a b).mp h1 with ⟨ha, haid, hb, hbid⟩
  rcases (hiff id a2 b2).mp h2 with ⟨ha2, ha2id, hb2, hb2id⟩
  exact ⟨List.inj_on_of_nodup_map hu1 ha ha2 (by rw [haid, ha2id]),
    List.inj_on_of_nodup_map hu2 hb hb2 (by rw [hbid, hb2id])⟩

/-- Permanent element of the current snapshot with identifier p1. -/
def currentPermanentEl : Dom :=
  Dom.elem "div" [("id", "p1"), ("data-turbo-permanent", "")] []

/-- A permanent element present only in the current snapshot. -/
def currentOnlyEl : Dom :=
  Dom.elem "div" [("id", "p2"), ("data-turbo-permanent", "")] []

/-- Current snapshot root. -/
def currentDoc : Dom := Dom.elem "body" [] [currentPermanentEl, currentOnlyEl]

/-- Permanent element of the incoming snapshot with identifier p1. -/
def incomingPermanentEl : Dom :=
  Dom.elem "span" [("id", "p1"), ("data-turbo-permanent", "")] []

/-- Incoming snapshot root. -/
def incomingDoc : Dom := Dom.elem "body" [] [incomingPermanentEl]

/-- Permanent element of the current snapshot with the dotted identifier. -/
def dottedCurrentEl : Dom :=
  Dom.elem "div" [("id", "a.b"), ("data-turbo-permanent", "")] []

/-- Current snapshot root for the dotted-identifier counterexample. -/
def dottedCurrentDoc : Dom := Dom.elem "body" [] [dottedCurrentEl]

/-- Permanent element of the incoming snapshot with the dotted identifier. -/
def dottedIncomingEl : Dom :=
  Dom.elem "span" [("id", "a.b"), ("data-turbo-permanent", "")] []

/-- Incoming snapshot root for the dotted-identifier counterexample. -/
def dottedIncomingDoc : Dom := Dom.elem "body" [] [dottedIncomingEl]

/-- C8 fails on the code: the identifier a.b is the unique permanent
identifier of each side and present on both, yet interpolating it gives the
probe selector #a.b[data-turbo-permanent] — an id selector for a compounded
with a class selector for b — which matches nothing, so the returned map
omits the entry the claim requires; interpolating an identifier that starts
with a digit (1x) makes the probe throw instead. -/
theorem getPermanentElementMapForSnapshot_drops_dotted_id :
    dottedCurrentEl ∈ Snapshot.permanentElements dottedCurrentDoc ∧
    dottedIncomingEl ∈ Snapshot.permanentElements dottedIncomingDoc ∧
    dottedCurrentEl.getAttr "id" = some "a.b" ∧
    dottedIncomingEl.getAttr "id" = some "a.b" ∧
    Snapshot.getPermanentElementMapForSnapshot dottedCurrentDoc dottedIncomingDoc
      = Except.ok [] ∧
    getPermanentElementById dottedIncomingDoc "1x"
      = Except.error QueryError.invalidSelector := by
  refine ⟨?_, ?_, by decide, by decide, ?_, ?_⟩
  · simp [Snapshot.permanentElements, queryPermanentElementsAll, Dom.descendants,
      preorderList, Dom.childNodes, dottedCurrentDoc, dottedCurrentEl,
      isPermanentElement, Dom.hasAttr, Dom.getAttr, Dom.attrs]
  · simp [Snapshot.permanentElements, queryPermanentElementsAll, Dom.descendants,
      preorderList, Dom.childNodes, dottedIncomingDoc, dottedIncomingEl,
      isPermanentElement, Dom.hasAttr, Dom.getAttr, Dom.attrs]
  · simp +decide [Snapshot.getPermanentElementMapForSnapshot,
      permanentElementMapLoop, Snapshot.permanentElements,
      queryPermanentElementsAll, Dom.descendants, preorderList, Dom.childNodes,
      dottedCurrentDoc, dottedCurrentEl, dottedIncomingDoc, dottedIncomingEl,
      isPermanentElement, Dom.hasAttr, Dom.getAttr, Dom.attrs,
      getPermanentElementById, parseIdSelector, cssPlainIdent, breakAtChar,
      dotChar, plainProbe, Dom.classList, splitClasses, htmlSpace]
  · simp +decide [getPermanentElementById, parseIdSelector, cssPlainIdent,
      breakAtChar, dotChar]

/-- Witness for the amended C8 at concrete snapshots sharing the plain
permanent identifier p1: the map call returns normally and its map holds
the entry pairing the two p1 elements. -/
theorem getPermanentElementMapForSnapshot_plain_ids_witness :
    ∃ m, Snapshot.getPermanentElementMapForSnapshot currentDoc incomingDoc
        = Except.ok m ∧
      ("p1", currentPermanentEl, incomingPermanentEl) ∈ m := by
  obtain ⟨m, hm, hiff, -⟩ :=
    getPermanentElementMapForSnapshot_plain_ids currentDoc incomingDoc
      (by simp +decide [Snapshot.permanentElements, queryPermanentElementsAll,
        Dom.descendants, preorderList, Dom.childNodes, currentDoc,
        currentPermanentEl, currentOnlyEl, isPermanentElement, Dom.hasAttr,
        Dom.getAttr, Dom.attrs])
      (by simp +decide [Snapshot.permanentElements, queryPermanentElementsAll,
        Dom.descendants, preorderList, Dom.childNodes, incomingDoc,
        incomingPermanentEl, isPermanentElement, Dom.hasAttr, Dom.getAttr,
        Dom.attrs])
      (by intro d hd
          simp [Snapshot.permanentElements, queryPermanentElementsAll,
            Dom.descendants, preorderList, Dom.childNodes, currentDoc,
            currentPermanentEl, currentOnlyEl, isPermanentElement, Dom.hasAttr,
            Dom.getAttr, Dom.attrs] at hd
          rcases hd with rfl | rfl <;> decide)
  refine ⟨m, hm, (hiff "p1" currentPermanentEl incomingPermanentEl).mpr
    ⟨by simp +decide [Snapshot.permanentElements, queryPermanentElementsAll,
        Dom.descendants, preorderList, Dom.childNodes, currentDoc,
        currentPermanentEl, currentOnlyEl, isPermanentElement, Dom.hasAttr,
        Dom.getAttr, Dom.attrs],
      by decide,
      by simp +decide [Snapshot.permanentElements, queryPermanentElementsAll,
        Dom.descendants, preorderList, Dom.childNodes, incomingDoc,
        incomingPermanentEl, isPermanentElement, Dom.hasAttr, Dom.getAttr,
        Dom.attrs],
      by decide⟩⟩

/-- The hash property, when present and non-empty, denotes the trailing
fragment of href: href ends with a hash sign followed by the hash minus its
leading character.  Every genuine URL object satisfies this (its hash is
empty or the hash sign plus the fragment, and its href ends with exactly
that); an arbitrary hand-built URL-like record need not. -/
def hashConsistent (url : URLLike) : Bool :=
  match url.hash with
  | none => true
  | some h =>
      if h.length > 0 then (hashChar :: h.toList.drop 1).isSuffixOf url.href.toList
      else true

/-- A successful first-hash scan splits the list at a hash sign. -/
theorem afterFirstHashChar_split {l r : List Char}
    (h : afterFirstHashChar l = some r) :
    ∃ p, l = p ++ hashChar :: r := by
  induction l with
  | nil => simp [afterFirstHashChar] at h
  | cons x xs ih =>
    rw [afterFirstHashChar] at h
    by_cases hx : x = hashChar
    · rw [if_pos hx] at h
      injection h with h
      exact ⟨[], by rw [hx, h]; rfl⟩
    · rw [if_neg hx] at h
      rcases ih h with ⟨p, hp⟩
      exact ⟨x :: p, by rw [hp]; rfl⟩

/-- The part after the last newline is a suffix of the whole list. -/
theorem afterLastNewline_suffix (l : List Char) : afterLastNewline l <:+ l := by
  have h1 : (l.reverse.takeWhile (fun c => c ≠ newlineChar)) <+: l.reverse :=
    List.takeWhile_prefix _
  have h2 : (l.reverse.takeWhile (fun c => c ≠ newlineChar)).reverse <:+ l.reverse.reverse :=
    List.reverse_suffix.mpr h1
  rw [List.reverse_reverse] at h2
  exact h2

/-- A fragment produced by the regex fallback is, together with its hash
sign, a suffix of the href. -/
theorem hrefMatchAnchor_suffix {href a : String}
    (h : hrefMatchAnchor href = some a) :
    hashChar :: a.toList <:+ href.toList := by
  rcases Option.map_eq_some'.mp h with ⟨cs, hcs, hmk⟩
  rcases afterFirstHashChar_split hcs with ⟨p, hp⟩
  have h1 : hashChar :: cs <:+ afterLastNewline href.toList := ⟨p, hp.symm⟩
  have h2 : hashChar :: cs <:+ href.toList := h1.trans (afterLastNewline_suffix _)
  have hcs2 : a.toList = cs := by rw [← hmk]; rfl
  rw [hcs2]
  exact h2

/-- Dropping the last fragment-plus-separator characters of a list ending in
that fragment, then reappending them, is the identity. -/
theorem take_strip_of_suffix {l a : List Char}
    (h : hashChar :: a <:+ l) :
    l.take (l.length - (a.length + 1)) ++ hashChar :: a = l := by
  rcases h with ⟨p, hp⟩
  rw [← hp]
  have hlen : (p ++ hashChar :: a).length - (a.length + 1) = p.length := by
    simp
  rw [hlen, List.take_left]

/-- C10 (amended): for every URL-like value whose hash, when present and
non-empty, is consistent with href (true of every genuine URL object),
getRequestURL strips exactly the fragment and its separator from the end of
href: with no anchor the href is returned unchanged, and otherwise
reappending the hash sign and the anchor recovers the href — including the
empty-fragment case of an href ending in a bare hash sign; toCacheKey is
the same value. -/
theorem getRequestURL_strips_exactly_the_fragment (url : URLLike)
    (hc : hashConsistent url = true) :
    (getAnchor url = none → getRequestURL url = url.href) ∧
    (∀ a, getAnchor url = some a →
      (getRequestURL url).toList ++ hashChar :: a.toList = url.href.toList) ∧
    toCacheKey url = getRequestURL url := by
  refine ⟨?_, ?_, rfl⟩
  · intro h
    simp [getRequestURL, h]
  · intro a ha
    have hsuf : hashChar :: a.toList <:+ url.href.toList := by
      cases hh : url.hash with
      | none =>
        simp only [getAnchor, hh] at ha
        exact hrefMatchAnchor_suffix ha
      | some h =>
        simp only [getAnchor, hh] at ha
        by_cases hlen : h.length > 0
        · rw [if_pos hlen] at ha
          injection ha with ha
          simp only [hashConsistent, hh] at hc
          rw [if_pos hlen] at hc
          have hs := List.isSuffixOf_iff_suffix.mp hc
          have hal : a.toList = h.toList.drop 1 := by rw [← ha]; rfl
          rw [hal]
          exact hs
        · rw [if_neg hlen] at ha
          exact hrefMatchAnchor_suffix ha
    simp only [getRequestURL, ha]
    exact take_strip_of_suffix hsuf

/-- A hand-built URL-like record whose hash does not occur in its href. -/
def inconsistentURL : URLLike := { href := "p", hash := some "#frag" }

/-- C10 fails over arbitrary URL-like values: with href p and hash #frag
the anchor is frag, yet the slice clamps to the empty string and
reappending the separator and anchor does not recover the href. -/
theorem getRequestURL_relation_fails_unconstrained :
    getAnchor inconsistentURL = some "frag" ∧
    getRequestURL inconsistentURL = "" ∧
    ¬((getRequestURL inconsistentURL).toList ++ hashChar :: (String.toList "frag")
        = inconsistentURL.href.toList) := by
  decide

/-- A genuine-URL shape with an empty fragment: href ends in a bare hash
sign and the hash property is the empty string. -/
def bareHashURL : URLLike := { href := "https://example.com/path#", hash := some "" }

/-- Witness for the amended C10 at the empty-fragment URL: stripping and
reappending the bare separator recovers the href. -/
theorem getRequestURL_strips_exactly_the_fragment_witness :
    (getRequestURL bareHashURL).toList ++ hashChar :: (String.toList "") =
      bareHashURL.href.toList :=
  (getRequestURL_strips_exactly_the_fragment bareHashURL (by decide)).2.1 "" (by decide)

/-- A renderer whose two async phases both succeed. -/
def okRenderer : Renderer :=
  { shouldRender := true, willRender := false, reloadReason := none,
    isPreview := false, renderMethod := some "replace",
    prepareToRenderOutcome := Except.ok (), renderOutcome := Except.ok () }

/-- A renderer whose render phase rejects. -/
def failingRenderer : Renderer :=
  { okRenderer with renderOutcome := Except.error "boom" }

/-- A renderer declining to render but requesting invalidation. -/
def reloadRenderer : Renderer :=
  { shouldRender := false, willRender := true, reloadReason := some "test-reason",
    isPreview := false, renderMethod := none,
    prepareToRenderOutcome := Except.ok (), renderOutcome := Except.ok () }

/-- C1: with shouldRender true, both renderer phases succeeding and the
Delegate allowing immediate render, the pipeline is exactly the gate, the
prepare phase (markAsPreview then prepareToRender), the render phase, and
the finalize sequence notify-rendered, preload-on-load-links,
finish-rendering, clear render-in-flight, in that fixed order; phase ranks
are monotone along the trace, so no step of a later phase occurs before any
step of an earlier phase. -/
theorem render_success_pipeline_order (r : Renderer) (resumed : Bool)
    (hs : r.shouldRender = true)
    (hp : r.prepareToRenderOutcome = Except.ok ())
    (hr : r.renderOutcome = Except.ok ()) :
    (View.render true resumed r).events =
      [VEvent.setRenderPromise, VEvent.allowsImmediateRenderAsked,
       VEvent.markAsPreview r.isPreview, VEvent.prepareToRenderCalled,
       VEvent.renderCalled, VEvent.viewRenderedSnapshot r.isPreview r.renderMethod,
       VEvent.preloadOnLoadLinksForView, VEvent.finishRenderingCalled,
       VEvent.clearRenderPromise] ∧
    List.Pairwise (fun a b => a.phaseRank ≤ b.phaseRank)
      (View.render true resumed r).events ∧
    (View.render true resumed r).outcome = ROutcome.completed := by
  have he : (View.render true resumed r).events =
      [VEvent.setRenderPromise, VEvent.allowsImmediateRenderAsked,
       VEvent.markAsPreview r.isPreview, VEvent.prepareToRenderCalled,
       VEvent.renderCalled, VEvent.viewRenderedSnapshot r.isPreview r.renderMethod,
       VEvent.preloadOnLoadLinksForView, VEvent.finishRenderingCalled,
       VEvent.clearRenderPromise] := by
    simp [View.render, hs, hp, hr]
  refine ⟨he, ?_, by simp [View.render, hs, hp, hr]⟩
  rw [he]
  simp [List.pairwise_cons, VEvent.phaseRank]

/-- Witness for C1 at a concrete successful renderer. -/
theorem render_success_pipeline_order_witness :
    (View.render true false okRenderer).events =
      [VEvent.setRenderPromise, VEvent.allowsImmediateRenderAsked,
       VEvent.markAsPreview okRenderer.isPreview, VEvent.prepareToRenderCalled,
       VEvent.renderCalled,
       VEvent.viewRenderedSnapshot okRenderer.isPreview okRenderer.renderMethod,
       VEvent.preloadOnLoadLinksForView, VEvent.finishRenderingCalled,
       VEvent.clearRenderPromise] ∧
    List.Pairwise (fun a b => a.phaseRank ≤ b.phaseRank)
      (View.render true false okRenderer).events ∧
    (View.render true false okRenderer).outcome = ROutcome.completed :=
  render_success_pipeline_order okRenderer false rfl rfl rfl

/-- C2: with shouldRender true and the pipeline allowed to finish (the
Delegate allows immediately, or resume is eventually invoked), the trace
opens by setting the render-in-flight marker, never sets it again, and ends
— on every settling path, successful or rejected — by clearing it exactly
once; a rejection of prepareToRender or of render makes the whole call
settle rejected with that failure, propagated to the caller. -/
theorem renderPromise_always_cleared (r : Renderer) (allows resumed : Bool)
    (hs : r.shouldRender = true) (hfin : allows = true ∨ resumed = true) :
    (∃ middle, (View.render allows resumed r).events =
        VEvent.setRenderPromise :: middle ++ [VEvent.clearRenderPromise] ∧
      VEvent.setRenderPromise ∉ middle ∧ VEvent.clearRenderPromise ∉ middle) ∧
    (∀ e, r.prepareToRenderOutcome = Except.error e →
      (View.render allows resumed r).outcome = ROutcome.rejected e) ∧
    (∀ e, r.prepareToRenderOutcome = Except.ok () → r.renderOutcome = Except.error e →
      (View.render allows resumed r).outcome = ROutcome.rejected e) := by
  cases allows with
  | true =>
    rcases hpo : r.prepareToRenderOutcome with e0 | u
    · exact ⟨⟨[VEvent.allowsImmediateRenderAsked, VEvent.markAsPreview r.isPreview,
          VEvent.prepareToRenderCalled],
          by simp [View.render, hs, hpo], by simp, by simp⟩,
        by simp [View.render, hs, hpo],
        by simp [View.render, hs, hpo]⟩
    · cases u
      rcases hro : r.renderOutcome with e0 | u2
      · exact ⟨⟨[VEvent.allowsImmediateRenderAsked, VEvent.markAsPreview r.isPreview,
            VEvent.prepareToRenderCalled, VEvent.renderCalled],
            by simp [View.render, hs, hpo, hro], by simp, by simp⟩,
          by simp [hpo],
          by simp [View.render, hs, hpo, hro]⟩
      · cases u2
        exact ⟨⟨[VEvent.allowsImmediateRenderAsked, VEvent.markAsPreview r.isPreview,
            VEvent.prepareToRenderCalled, VEvent.renderCalled,
            VEvent.viewRenderedSnapshot r.isPreview r.renderMethod,
            VEvent.preloadOnLoadLinksForView, VEvent.finishRenderingCalled],
            by simp [View.render, hs, hpo, hro], by simp, by simp⟩,
          by simp [hpo],
          by simp [hro]⟩
  | false =>
    have hres : resumed = true := by
      rcases hfin with h | h
      · exact absurd h (by decide)
      · exact h
    subst hres
    rcases hpo : r.prepareToRenderOutcome with e0 | u
    · exact ⟨⟨[VEvent.allowsImmediateRenderAsked, VEvent.resumeInvoked,
          VEvent.markAsPreview r.isPreview, VEvent.prepareToRenderCalled],
          by simp [View.render, hs, hpo], by simp, by simp⟩,
        by simp [View.render, hs, hpo],
        by simp [View.render, hs, hpo]⟩
    · cases u
      rcases hro : r.renderOutcome with e0 | u2
      · exact ⟨⟨[VEvent.allowsImmediateRenderAsked, VEvent.resumeInvoked,
            VEvent.markAsPreview r.isPreview, VEvent.prepareToRenderCalled,
            VEvent.renderCalled],
            by simp [View.render, hs, hpo, hro], by simp, by simp⟩,
          by simp [hpo],
          by simp [View.render, hs, hpo, hro]⟩
      · cases u2
        exact ⟨⟨[VEvent.allowsImmediateRenderAsked, VEvent.resumeInvoked,
            VEvent.markAsPreview r.isPreview, VEvent.prepareToRenderCalled,
            VEvent.renderCalled,
            VEvent.viewRenderedSnapshot r.isPreview r.renderMethod,
            VEvent.preloadOnLoadLinksForView, VEvent.finishRenderingCalled],
            by simp [View.render, hs, hpo, hro], by simp, by simp⟩,
          by simp [hpo],
          by simp [hro]⟩

/-- Witness for C2 at a concrete renderer whose render phase rejects: the
marker bracket is present and the rejection is the outcome. -/
theorem renderPromise_always_cleared_witness :
    (∃ middle, (View.render true false failingRenderer).events =
        VEvent.setRenderPromise :: middle ++ [VEvent.clearRenderPromise] ∧
      VEvent.setRenderPromise ∉ middle ∧ VEvent.clearRenderPromise ∉ middle) ∧
    (∀ e, failingRenderer.prepareToRenderOutcome = Except.error e →
      (View.render true false failingRenderer).outcome = ROutcome.rejected e) ∧
    (∀ e, failingRenderer.prepareToRenderOutcome = Except.ok () →
        failingRenderer.renderOutcome = Except.error e →
      (View.render true false failingRenderer).outcome = ROutcome.rejected e) :=
  renderPromise_always_cleared failingRenderer true false rfl (Or.inl rfl)

/-- C3: with shouldRender true and a Delegate refusing immediate render,
the pipeline stops after setting the marker and consulting the Delegate:
while resume has not been invoked it stays pending and neither
prepareToRender nor render is called; once resume is invoked the pipeline
proceeds and — with both phases succeeding — completes normally through
prepare, render and the finalize sequence. -/
theorem render_suspends_until_resume (r : Renderer)
    (hs : r.shouldRender = true)
    (hp : r.prepareToRenderOutcome = Except.ok ())
    (hr : r.renderOutcome = Except.ok ()) :
    (View.render false false r).events =
      [VEvent.setRenderPromise, VEvent.allowsImmediateRenderAsked] ∧
    (View.render false false r).outcome = ROutcome.pending ∧
    VEvent.prepareToRenderCalled ∉ (View.render false false r).events ∧
    VEvent.renderCalled ∉ (View.render false false r).events ∧
    (View.render false true r).events =
      [VEvent.setRenderPromise, VEvent.allowsImmediateRenderAsked,
       VEvent.resumeInvoked, VEvent.markAsPreview r.isPreview,
       VEvent.prepareToRenderCalled, VEvent.renderCalled,
       VEvent.viewRenderedSnapshot r.isPreview r.renderMethod,
       VEvent.preloadOnLoadLinksForView, VEvent.finishRenderingCalled,
       VEvent.clearRenderPromise] ∧
    (View.render false true r).outcome = ROutcome.completed := by
  refine ⟨?_, ?_, ?_, ?_, ?_, ?_⟩ <;> simp [View.render, hs, hp, hr]

/-- Witness for C3 at a concrete successful renderer. -/
theorem render_suspends_until_resume_witness :
    (View.render false false okRenderer).events =
      [VEvent.setRenderPromise, VEvent.allowsImmediateRenderAsked] ∧
    (View.render false false okRenderer).outcome = ROutcome.pending ∧
    VEvent.prepareToRenderCalled ∉ (View.render false false okRenderer).events ∧
    VEvent.renderCalled ∉ (View.render false false okRenderer).events ∧
    (View.render false true okRenderer).events =
      [VEvent.setRenderPromise, VEvent.allowsImmediateRenderAsked,
       VEvent.resumeInvoked, VEvent.markAsPreview okRenderer.isPreview,
       VEvent.prepareToRenderCalled, VEvent.renderCalled,
       VEvent.viewRenderedSnapshot okRenderer.isPreview okRenderer.renderMethod,
       VEvent.preloadOnLoadLinksForView, VEvent.finishRenderingCalled,
       VEvent.clearRenderPromise] ∧
    (View.render false true okRenderer).outcome = ROutcome.completed :=
  render_suspends_until_resume okRenderer rfl rfl rfl

/-- C4: with shouldRender false and willRender true, the call invalidates —
notifying viewInvalidated with exactly the reloadReason of the renderer — and
returns without any prepare, render or finalize step. -/
theorem render_invalidates_on_willRender (r : Renderer) (allows resumed : Bool)
    (hs : r.shouldRender = false) (hw : r.willRender = true) :
    (View.render allows resumed r).events = [VEvent.viewInvalidated r.reloadReason] ∧
    (View.render allows resumed r).outcome = ROutcome.completed ∧
    VEvent.prepareToRenderCalled ∉ (View.render allows resumed r).events ∧
    VEvent.renderCalled ∉ (View.render allows resumed r).events ∧
    VEvent.preloadOnLoadLinksForView ∉ (View.render allows resumed r).events ∧
    VEvent.finishRenderingCalled ∉ (View.render allows resumed r).events ∧
    VEvent.clearRenderPromise ∉ (View.render allows resumed r).events ∧
    (∀ b m, VEvent.viewRenderedSnapshot b m ∉ (View.render allows resumed r).events) := by
  refine ⟨?_, ?_, ?_, ?_, ?_, ?_, ?_, ?_⟩ <;> simp [View.render, hs, hw]

/-- Witness for C4 at the concrete reload-requesting renderer with reason
test-reason. -/
theorem render_invalidates_on_willRender_witness :
    (View.render true false reloadRenderer).events =
      [VEvent.viewInvalidated reloadRenderer.reloadReason] ∧
    (View.render true false reloadRenderer).outcome = ROutcome.completed ∧
    VEvent.prepareToRenderCalled ∉ (View.render true false reloadRenderer).events ∧
    VEvent.renderCalled ∉ (View.render true false reloadRenderer).events ∧
    VEvent.preloadOnLoadLinksForView ∉ (View.render true false reloadRenderer).events ∧
    VEvent.finishRenderingCalled ∉ (View.render true false reloadRenderer).events ∧
    VEvent.clearRenderPromise ∉ (View.render true false reloadRenderer).events ∧
    (∀ b m, VEvent.viewRenderedSnapshot b m ∉ (View.render true false reloadRenderer).events) :=
  render_invalidates_on_willRender reloadRenderer true false rfl rfl
